import Mathlib

/-!
Verification development for the slide-extraction pipeline of video2notes.

The definitions below are a shallow embedding of the code in
`scripts/extract-slides.py` (the optimized variant; `02-extract-slides.py`
agrees on every point proved here).  External libraries (OpenCV decoding,
`imagehash.phash`, `pytesseract`, and the name-density classifier
`analyze_text_for_names`) are modelled as parameters of the pipeline
context: the pipeline is proved correct for every choice of those
collaborators.  Machine images are lists of rows of pixels, a pixel being
the list of its channel values (Nat).  Perceptual hashes are bit lists with
Hamming distance.  The video is a map from frame index to an optional
frame: `none` models a failed seek/decode at that index.
-/

namespace V2N

/-! ## Regions and images (`crop_slide`, `mask_frame`) -/

/-- A rectangular region of interest `(x, y, w, h)` in pixel coordinates. -/
structure Roi where
  x : Nat
  y : Nat
  w : Nat
  h : Nat
deriving DecidableEq, Repr

/-- A pixel is the list of its channel values (e.g. BGR). -/
abbrev Pix := List Nat

/-- An image is a list of rows of pixels. -/
abbrev Img := List (List Pix)

/-- Insertion into a sorted list, used to model numpy's sort inside `np.median`. -/
def insertSorted (x : Nat) : List Nat → List Nat
  | [] => [x]
  | y :: ys => if x ≤ y then x :: y :: ys else y :: insertSorted x ys

/-- Sorting a list of Nats (insertion sort). -/
def sortNat (l : List Nat) : List Nat := l.foldr insertSorted []

/-- Model of `np.median(...).astype(np.uint8)` on one channel: sort, take the
middle element for odd length, the floor of the average of the two middle
elements for even length (`astype(np.uint8)` truncates the `.5`). -/
def npMedian (l : List Nat) : Nat :=
  let s := sortNat l
  let n := s.length
  if n = 0 then 0
  else if n % 2 = 1 then s.getD (n / 2) 0
  else (s.getD (n / 2 - 1) 0 + s.getD (n / 2) 0) / 2

/-- Model of `np.median(frame, axis=(0, 1)).astype(np.uint8)`: the per-channel
median over all pixels of the frame. -/
def medianColor (f : Img) : Pix :=
  let pixels := f.flatten
  let channels := (pixels.headD []).length
  (List.range channels).map (fun c => npMedian (pixels.map (fun p => p.getD c 0)))

/-- Whether position `(r, c)` (row, column) lies inside the region. -/
def inRoi (roi : Roi) (r c : Nat) : Bool :=
  decide (roi.y ≤ r) && decide (r < roi.y + roi.h) &&
  decide (roi.x ≤ c) && decide (c < roi.x + roi.w)

/-- Paint the cells of one row that lie inside `roi` with `bg`; `c0` is the
column index of the first cell. -/
def paintRow (bg : Pix) (roi : Roi) (r : Nat) : Nat → List Pix → List Pix
  | _, [] => []
  | c, p :: ps => (if inRoi roi r c then bg else p) :: paintRow bg roi r (c + 1) ps

/-- Paint the cells of an image that lie inside `roi` with `bg`; `r0` is the
row index of the first row.  Models `frame[y:y+h, x:x+w] = bg` (with numpy's
clipping of out-of-range slices). -/
def paintImg (bg : Pix) (roi : Roi) : Nat → Img → Img
  | _, [] => []
  | r, row :: rows => paintRow bg roi r 0 row :: paintImg bg roi (r + 1) rows

/-- `mask_frame(frame, roi)`: paint the region with the per-channel median
color of the frame *as passed to this call*. -/
def mask_frame (f : Img) (roi : Roi) : Img :=
  paintImg (medianColor f) roi 0 f

/-- `crop_slide(frame, roi)`: `frame[y:y+h, x:x+w]`, or the whole frame when
no slide ROI is configured. -/
def crop_slide (f : Img) (roi : Option Roi) : Img :=
  match roi with
  | none => f
  | some r => ((f.drop r.y).take r.h).map (fun row => (row.drop r.x).take r.w)

/-- The comparison surface built by the per-frame loop body (and by
`_read_frame_at_position`): apply the masks in order, then crop the slide
region.  The `if` mirrors the Python truthiness test `if masks_roi:`. -/
def region_surface (frame : Img) (slide_roi : Option Roi) (masks_roi : List Roi) : Img :=
  if masks_roi.isEmpty then crop_slide frame slide_roi
  else crop_slide (masks_roi.foldl mask_frame frame) slide_roi

/-- Pixel access with defaults, for stating pixel-level properties. -/
def pixAt (f : Img) (r c : Nat) : Pix :=
  (f.getD r []).getD c []

/-! ## Fingerprints -/

/-- A perceptual-hash fingerprint: a fixed-length bit vector. -/
abbrev FP := List Bool

/-- Hamming distance between fingerprints, the meaning of
`abs(hash1 - hash2)` for `imagehash` objects. -/
def hdist (a b : FP) : Nat :=
  ((a.zip b).filter (fun p => p.1 ≠ p.2)).length

/-- Model of `str(imagehash)`: a canonical injective rendering of the bits. -/
def fpStr (a : FP) : String :=
  String.mk (a.map (fun b => if b then '1' else '0'))

/-! ## Slide records and paths -/

/-- A slide record, as appended to `unique_slides`.  The hash field is an
`imagehash` object (`FP`) during the scan and a string in the returned
manifest, hence the type parameter. -/
structure Slide (α : Type) where
  group_id : Nat
  timestamp : Nat
  image_path : String
  ocr_text : String
  imagehash : α
deriving DecidableEq, Repr

/-- `os.path.join` for the paths built by this pipeline. -/
def joinPath (a b : String) : String := a ++ "/" ++ b

/-- The file name `slide_<group_id>.png`. -/
def imgFileName (gid : Nat) : String := "slide_" ++ toString gid ++ ".png"

/-- `MIN_OCR_TEXT_LENGTH`: minimum characters for a valid slide. -/
def MIN_OCR_TEXT_LENGTH : Nat := 10

/-- `MAX_OCR_TEXT_FOR_NAME_CHECK`: maximum characters to check for names. -/
def MAX_OCR_TEXT_FOR_NAME_CHECK : Nat := 300

/-! ## Pipeline context and state -/

/-- Everything `_extract_slides_impl` reads from its environment: the opened
video (`video n = none` models a failed read at index `n`), the video
properties, the folders, the parameters, and the external collaborators.
`hashFn` is `phash ∘ grayscale ∘ region_surface` applied to a decoded frame
(the slide ROI and mask ROIs are fixed for a call, so this composition is a
function of the frame alone); `ocrFn` is `pytesseract.image_to_string` on the
unmasked full frame; `nameFn` is `analyze_text_for_names`, returning
`(is_mostly_names, names)` (the middle component of the Python triple is
unused by the caller); `posSec` gives `cap.get(CAP_PROP_POS_MSEC) / 1000` as
observed right after reading the frame at the given index. -/
structure Ctx (Frame : Type) where
  video : Nat → Option Frame
  fps : Nat
  frame_count : Nat
  posSec : Nat → Nat
  hashFn : Frame → FP
  ocrFn : Frame → String
  nameFn : String → Bool × List String
  save_folder : String
  slides_folder : String
  start_seconds : Nat
  end_seconds : Option Nat
  frame_rate : Nat
  similarity_threshold : Nat

/-- The mutable locals of `_extract_slides_impl`.  `written` records the image
files written with `cv2.imwrite`; `cur_hash` is the Python local
`current_hash` (the hash of the most recently read tick), which the final
flush reuses. -/
structure St where
  frame_number : Nat
  unique_slides : List (Slide FP)
  hash_index : List (String × Nat × FP)
  last_slide_hash : Option FP
  group_started : Bool
  first_ts : Option Nat
  members : List Nat
  speaker_names : List String
  names_text : String
  group_id : Nat
  written : List String
  cur_hash : Option FP
deriving DecidableEq, Repr

/-- The initial state: `frame_number = start_seconds * fps`, everything else
empty. -/
def initSt {Frame} (ctx : Ctx Frame) : St :=
  { frame_number := ctx.start_seconds * ctx.fps
    unique_slides := []
    hash_index := []
    last_slide_hash := none
    group_started := false
    first_ts := none
    members := []
    speaker_names := []
    names_text := ""
    group_id := 0
    written := []
    cur_hash := none }

/-- `end_frame = end_seconds * fps if end_seconds else frame_count`; the
Python truthiness test makes `end_seconds = 0` fall back to the frame count
exactly like `None`. -/
def endFrame {Frame} (ctx : Ctx Frame) : Nat :=
  match ctx.end_seconds with
  | some e => if e = 0 then ctx.frame_count else e * ctx.fps
  | none => ctx.frame_count

/-- Python dict assignment `d[k] = v`: replace in place if the key exists,
otherwise append (dicts preserve insertion order). -/
def dictInsert (k : String) (v : Nat × FP) : List (String × Nat × FP) → List (String × Nat × FP)
  | [] => [(k, v)]
  | (k', v') :: rest => if k' = k then (k, v) :: rest else (k', v') :: dictInsert k v rest

/-- `_is_duplicate_slide`: whether the hash is within the similarity threshold
of any fingerprint stored in the index (the matched group id is only
logged by the caller, so only the Boolean is modelled). -/
def is_duplicate_slide (h : FP) (index : List (String × Nat × FP)) (t : Nat) : Bool :=
  index.any (fun e => decide (hdist h e.2.2 ≤ t))

/-- The boundary test of line 164: `last_slide_hash is None or
abs(current_hash - last_slide_hash) > similarity_threshold`. -/
def isBoundary (t : Nat) (h : FP) : Option FP → Bool
  | none => true
  | some lh => decide (t < hdist h lh)

/-- The common tail of the group-closing block (lines 220-227): clear the
member list, consume the group id, leave the run state, and resume the scan
at the saved position plus the 3-second dead-time. -/
def closeFinish {Frame} (ctx : Ctx Frame) (st : St) : St :=
  { st with
    members := []
    group_id := st.group_id + 1
    group_started := false
    frame_number := st.frame_number + ctx.fps * 3 }

/-- The acceptance block (lines 202-218): write `slide_<gid>.png`, record the
boundary hash in the duplicate index, append the slide record, then the
common tail. -/
def closeAccept {Frame} (ctx : Ctx Frame) (h : FP) (ocr : String) (st : St) : St :=
  closeFinish ctx
    { st with
      written := st.written ++ [joinPath ctx.save_folder (imgFileName st.group_id)]
      hash_index := dictInsert (fpStr h) (st.group_id, h) st.hash_index
      unique_slides := st.unique_slides ++
        [⟨st.group_id, st.first_ts.getD 0, joinPath ctx.slides_folder (imgFileName st.group_id),
          ocr, h⟩] }

/-- The group-closing block (lines 166-228), entered when a boundary tick
arrives while a group is open.  `h` is `current_hash`, the hash of the
boundary tick itself.  Decode the temporal-middle member on demand; reject on
decode failure or short OCR text; when at least one slide was already
accepted (`elif slide_hash_index:`), reject fingerprint duplicates and, for
texts within the name-check ceiling, mostly-names candidates (updating the
retained name block when strictly more names were detected); otherwise
accept. -/
def closeGroup {Frame} (ctx : Ctx Frame) (h : FP) (st : St) : St :=
  let middle := st.members.getD (st.members.length / 2) 0
  match ctx.video middle with
  | none => closeFinish ctx st
  | some f =>
    let ocr := ctx.ocrFn f
    if ocr.length < MIN_OCR_TEXT_LENGTH then closeFinish ctx st
    else if st.hash_index.isEmpty then closeAccept ctx h ocr st
    else if is_duplicate_slide h st.hash_index ctx.similarity_threshold then closeFinish ctx st
    else if ocr.length ≤ MAX_OCR_TEXT_FOR_NAME_CHECK then
      match ctx.nameFn ocr with
      | (true, names) =>
        closeFinish ctx
          (if st.speaker_names.length < names.length then
            { st with speaker_names := names, names_text := ocr }
          else st)
      | (false, _) => closeAccept ctx h ocr st
    else closeAccept ctx h ocr st

/-- One iteration of the main `while` loop (lines 142-241).  `none` means the
loop exits (bound reached, or `cap.read()` failed).  On a boundary with an
open group, close the group (`continue`, which skips the
`last_slide_hash` update); on a boundary otherwise, start a new group at
this tick; inside a group, record the member; then step by one sampling
interval. -/
def loopIter {Frame} (ctx : Ctx Frame) (endf : Nat) (st : St) : Option St :=
  if st.frame_number < endf then
    match ctx.video st.frame_number with
    | none => none
    | some fr =>
      let h := ctx.hashFn fr
      let st1 := { st with cur_hash := some h }
      some
        (if isBoundary ctx.similarity_threshold h st1.last_slide_hash then
          if st1.group_started = true ∧ st1.members ≠ [] then closeGroup ctx h st1
          else
            { st1 with
              first_ts := some (ctx.posSec st1.frame_number)
              members := [st1.frame_number]
              group_started := true
              last_slide_hash := some h
              frame_number := st1.frame_number + ctx.fps * ctx.frame_rate }
        else
          let st2 :=
            if st1.group_started then { st1 with members := st1.members ++ [st1.frame_number] }
            else st1
          { st2 with
            last_slide_hash := some h
            frame_number := st2.frame_number + ctx.fps * ctx.frame_rate })
  else none

/-- Running the main loop for at most `fuel` iterations.  The Python loop has
no fuel; every concrete scenario below uses enough fuel for the loop to reach
its natural exit, and the invariants are proved for every fuel. -/
def runLoop {Frame} (ctx : Ctx Frame) (endf : Nat) : Nat → St → St
  | 0, st => st
  | Nat.succ fuel, st =>
    match loopIter ctx endf st with
    | none => st
    | some st' => runLoop ctx endf fuel st'

/-- The handling of the last open group after the loop (lines 243-267):
decode the middle member; on success and sufficient OCR text, write the image
and append the record, reusing the hash of the last tick read
(`current_hash`).  No duplicate check and no name check are performed here. -/
def flushLast {Frame} (ctx : Ctx Frame) (st : St) : St :=
  if st.group_started = true ∧ st.members ≠ [] then
    match ctx.video (st.members.getD (st.members.length / 2) 0) with
    | none => st
    | some f =>
      let ocr := ctx.ocrFn f
      if MIN_OCR_TEXT_LENGTH ≤ ocr.length then
        { st with
          written := st.written ++ [joinPath ctx.save_folder (imgFileName st.group_id)]
          unique_slides := st.unique_slides ++
            [⟨st.group_id, st.first_ts.getD 0,
              joinPath ctx.slides_folder (imgFileName st.group_id), ocr,
              st.cur_hash.getD []⟩] }
      else st
  else st

/-- The final conversion `slide['imagehash'] = str(slide['imagehash'])`. -/
def stringifyHash (r : Slide FP) : Slide String :=
  ⟨r.group_id, r.timestamp, r.image_path, r.ocr_text, fpStr r.imagehash⟩

/-- `_extract_slides_impl`: run the sampling loop from the start position,
flush the last open group, stringify the hashes, and report the returned
slide list together with every file written (slide images, plus
`speaker_names.txt` when any mostly-names candidate was retained). -/
def extractImpl {Frame} (ctx : Ctx Frame) (fuel : Nat) : List (Slide String) × List String :=
  let st := flushLast ctx (runLoop ctx (endFrame ctx) fuel (initSt ctx))
  (st.unique_slides.map stringifyHash,
    st.written ++
      (if st.speaker_names.isEmpty then [] else [joinPath ctx.save_folder "speaker_names.txt"]))

/-- `extract_unique_slides`: when the video cannot be opened
(`opened = false`), log and return the empty list, writing nothing;
otherwise run the implementation (with fuel ample for the loop's natural
exit). -/
def extract_unique_slides {Frame} (opened : Bool) (ctx : Ctx Frame) :
    List (Slide String) × List String :=
  if opened then extractImpl ctx (endFrame ctx + 1) else ([], [])

/-! ## Exact-text deduplication pass (`deduplicate_slides_by_ocr`)

The file system is modelled explicitly: `fs` is the list of files that exist
when the pass starts, and the pass reports the files it deleted with
`os.remove` (guarded by `os.path.exists`). -/

/-- The whitespace characters of Python's default `str.split` / `str.strip`
(ASCII part). -/
def isPySpace (c : Char) : Bool :=
  c = ' ' || c = '\t' || c = '\n' || c = '\r' || c = '\x0b' || c = '\x0c'

/-- Python `str.strip()`: drop leading and trailing whitespace. -/
def pyStrip (s : String) : String :=
  String.mk (((s.toList.dropWhile isPySpace).reverse.dropWhile isPySpace).reverse)

/-- Helper for `str.split()`: split on whitespace runs, dropping empty
pieces; `cur` is the current word accumulated in reverse. -/
def wordsAux : List Char → List Char → List (List Char)
  | cur, [] => if cur.isEmpty then [] else [cur.reverse]
  | cur, c :: cs =>
    if isPySpace c then
      if cur.isEmpty then wordsAux [] cs else cur.reverse :: wordsAux [] cs
    else wordsAux (c :: cur) cs

/-- Python `str.split()` with no arguments. -/
def pySplitWs (s : String) : List String := (wordsAux [] s.toList).map String.mk

/-- The normalization of line 306-309: `' '.join(ocr_text.strip().split())` —
whitespace runs collapsed to single spaces, trimmed. -/
def normalizeOcr (s : String) : String :=
  String.intercalate " " (pySplitWs (pyStrip s))

/-- The loop of `deduplicate_slides_by_ocr`: `seen` is the set of normalized
texts already seen, `kept` and `deleted` the accumulated outputs, `fs` the
files currently existing. -/
def dedupGo {α} (folder : String) :
    List (Slide α) → List String → List (Slide α) → List String → List String →
    List (Slide α) × List String
  | [], _, kept, deleted, _ => (kept, deleted)
  | s :: rest, seen, kept, deleted, fs =>
    if normalizeOcr s.ocr_text ∈ seen then
      let fp := joinPath folder (imgFileName s.group_id)
      if fp ∈ fs then dedupGo folder rest seen kept (deleted ++ [fp]) (fs.erase fp)
      else dedupGo folder rest seen kept deleted fs
    else
      dedupGo folder rest (seen ++ [normalizeOcr s.ocr_text]) (kept ++ [s]) deleted fs

/-- `deduplicate_slides_by_ocr(unique_slides, save_folder)`: returns the kept
slides and the image files deleted from `fs`. -/
def deduplicate_slides_by_ocr {α} (slides : List (Slide α)) (folder : String)
    (fs : List String) : List (Slide α) × List String :=
  dedupGo folder slides [] [] [] fs

/-- The post-pass as the claim words it: iterate accepted Slides in acceptance
order; keep the first Slide seen for each distinct normalized text; drop every
later Slide whose normalized text matches an earlier kept one and delete its
persisted image file. -/
def dedupClaimGo {α} (folder : String) :
    List (Slide α) → List (Slide α) → List String → List String →
    List (Slide α) × List String
  | [], kept, deleted, _ => (kept, deleted)
  | s :: rest, kept, deleted, fs =>
    if normalizeOcr s.ocr_text ∈ kept.map (fun t => normalizeOcr t.ocr_text) then
      let fp := joinPath folder (imgFileName s.group_id)
      if fp ∈ fs then dedupClaimGo folder rest kept (deleted ++ [fp]) (fs.erase fp)
      else dedupClaimGo folder rest kept deleted fs
    else dedupClaimGo folder rest (kept ++ [s]) deleted fs

/-- The claim-side statement of the post-pass, to be compared with
`deduplicate_slides_by_ocr`. -/
def dedupClaim {α} (slides : List (Slide α)) (folder : String)
    (fs : List String) : List (Slide α) × List String :=
  dedupClaimGo folder slides [] [] fs

/-- The invariant maintained over the scan: slide records carry strictly
increasing group ids, all below the group counter; every record's OCR text
meets the minimum length; and the image files written so far are exactly the
accepted slides' files. -/
def StInv {Frame} (ctx : Ctx Frame) (st : St) : Prop :=
  List.Chain' (fun a b => a.group_id < b.group_id) st.unique_slides ∧
  (∀ r ∈ st.unique_slides, r.group_id < st.group_id) ∧
  (∀ r ∈ st.unique_slides, MIN_OCR_TEXT_LENGTH ≤ r.ocr_text.length) ∧
  st.written = st.unique_slides.map (fun r => joinPath ctx.save_folder (imgFileName r.group_id))

/-! ## Concrete scenarios

Two four-bit fingerprints at Hamming distance 4: `fpA` stands for the hash of
a slide "A" comparison surface, `fpB` for a visually different slide "B". -/

def fpA : FP := [false, false, false, false]

def fpB : FP := [true, true, true, true]

/-- Scenario "A shown, B shown, A shown again": frames are their indices,
`fps = 1`, one sample per second, threshold 1.  Frames 0-2 show slide A,
frames 3-6 show slide B, frames 7-12 show slide A again.  OCR always yields
ten characters, the name classifier never fires. -/
def ctxReshow : Ctx Nat :=
  { video := fun n => if n ≤ 12 then some n else none
    fps := 1
    frame_count := 13
    posSec := fun n => n
    hashFn := fun n => if n ≤ 2 then fpA else if n ≤ 6 then fpB else fpA
    ocrFn := fun _ => "0123456789"
    nameFn := fun _ => (false, [])
    save_folder := "out"
    slides_folder := "out"
    start_seconds := 0
    end_seconds := none
    frame_rate := 1
    similarity_threshold := 1 }

/-- Scenario "first candidate is a name list": frames 0-2 show the attendee
list (hash `fpA`), frame 3 is a boundary.  The classifier reports mostly
names with three detected names on the candidate's fifteen-character text. -/
def ctxNames : Ctx Nat :=
  { video := fun n => if n ≤ 3 then some n else none
    fps := 1
    frame_count := 4
    posSec := fun n => n
    hashFn := fun n => if n ≤ 2 then fpA else fpB
    ocrFn := fun _ => "Alice Bob Carol"
    nameFn := fun _ => (true, ["Alice", "Bob", "Carol"])
    save_folder := "out"
    slides_folder := "out"
    start_seconds := 0
    end_seconds := none
    frame_rate := 1
    similarity_threshold := 1 }

/-- Scenario "first run rejected for short text": frames 0-2 show a picture
whose OCR text is one character, frames 3-8 show a real slide. -/
def ctxShortFirst : Ctx Nat :=
  { video := fun n => if n ≤ 8 then some n else none
    fps := 1
    frame_count := 9
    posSec := fun n => n
    hashFn := fun n => if n ≤ 2 then fpA else fpB
    ocrFn := fun n => if n ≤ 2 then "x" else "0123456789"
    nameFn := fun _ => (false, [])
    save_folder := "out"
    slides_folder := "out"
    start_seconds := 0
    end_seconds := none
    frame_rate := 1
    similarity_threshold := 1 }

/-- A 1-by-4 single-channel frame whose per-channel median is 5, with two
configured mask regions (column 0 and column 3), as with a `speaker` and a
`subtitle` region. -/
def cImg : Img := [[[0], [0], [10], [10]]]

def cRoiSpeaker : Roi := ⟨0, 0, 1, 1⟩

def cRoiSubtitle : Roi := ⟨3, 0, 1, 1⟩

/-- A state in which the closed run's representative frame cannot be
re-decoded: the run's single member is frame 2, and seeking to frame 2 now
fails, while the boundary frame 5 still decodes. -/
def ctxFail : Ctx Nat :=
  { video := fun n => if n = 5 then some 5 else none
    fps := 1
    frame_count := 100
    posSec := fun n => n
    hashFn := fun _ => fpB
    ocrFn := fun _ => "0123456789"
    nameFn := fun _ => (false, [])
    save_folder := "out"
    slides_folder := "out"
    start_seconds := 0
    end_seconds := none
    frame_rate := 1
    similarity_threshold := 1 }

def stFail : St :=
  { frame_number := 5
    unique_slides := []
    hash_index := []
    last_slide_hash := some fpA
    group_started := true
    first_ts := some 2
    members := [2]
    speaker_names := []
    names_text := ""
    group_id := 7
    written := []
    cur_hash := some fpA }

/-- A mid-scan state with one accepted slide (stored fingerprint `fpB`) and an
open run with members 7 and 8, about to be closed by a boundary tick. -/
def stDup : St :=
  { frame_number := 9
    unique_slides := [⟨0, 0, "out/slide_0.png", "0123456789", fpB⟩]
    hash_index := [(fpStr fpB, 0, fpB)]
    last_slide_hash := some fpB
    group_started := true
    first_ts := some 7
    members := [7, 8]
    speaker_names := []
    names_text := ""
    group_id := 1
    written := ["out/slide_0.png"]
    cur_hash := some fpB }

/-- A mid-scan state like `stDup` but whose open run's single member is frame
1, used with `ctxNames` to exercise the name-density branch. -/
def stNameCheck : St :=
  { frame_number := 3
    unique_slides := [⟨0, 0, "out/slide_0.png", "0123456789", fpB⟩]
    hash_index := [(fpStr fpB, 0, fpB)]
    last_slide_hash := some fpA
    group_started := true
    first_ts := some 1
    members := [1]
    speaker_names := []
    names_text := ""
    group_id := 1
    written := ["out/slide_0.png"]
    cur_hash := some fpA }

/-- The seen-set of the implementation is exactly the normalized texts of the
kept slides, so the two descriptions of the pass agree. -/
theorem dedupGo_eq_claimGo {α} (folder : String) :
    ∀ (rest : List (Slide α)) (seen : List String) (kept : List (Slide α))
      (deleted fs : List String),
      seen = kept.map (fun t => normalizeOcr t.ocr_text) →
      dedupGo folder rest seen kept deleted fs = dedupClaimGo folder rest kept deleted fs := by
  intro rest
  induction rest with
  | nil => intro seen kept deleted fs hseen; rfl
  | cons s rest ih =>
    intro seen kept deleted fs hseen
    subst hseen
    by_cases hmem :
        normalizeOcr s.ocr_text ∈ kept.map (fun t => normalizeOcr t.ocr_text)
    · by_cases hfs : joinPath folder (imgFileName s.group_id) ∈ fs
      · simp only [dedupGo, dedupClaimGo, if_pos hmem, if_pos hfs]
        exact ih _ _ _ _ rfl
      · simp only [dedupGo, dedupClaimGo, if_pos hmem, if_neg hfs]
        exact ih _ _ _ _ rfl
    · simp only [dedupGo, dedupClaimGo, if_neg hmem]
      exact ih _ _ _ _ (by simp)

/-- Kept slides have pairwise distinct normalized texts, provided every kept
slide's normalized text is recorded in `seen`. -/
theorem dedupGo_pairwise {α} (folder : String) :
    ∀ (rest : List (Slide α)) (seen : List String) (kept : List (Slide α))
      (deleted fs : List String),
      (∀ t ∈ kept, normalizeOcr t.ocr_text ∈ seen) →
      List.Pairwise (fun a b => normalizeOcr a.ocr_text ≠ normalizeOcr b.ocr_text) kept →
      List.Pairwise (fun a b => normalizeOcr a.ocr_text ≠ normalizeOcr b.ocr_text)
        (dedupGo folder rest seen kept deleted fs).1 := by
  intro rest
  induction rest with
  | nil => intro seen kept deleted fs _ hpw; exact hpw
  | cons s rest ih =>
    intro seen kept deleted fs hseen hpw
    by_cases hmem : normalizeOcr s.ocr_text ∈ seen
    · by_cases hfs : joinPath folder (imgFileName s.group_id) ∈ fs
      · simp only [dedupGo, if_pos hmem, if_pos hfs]
        exact ih _ _ _ _ hseen hpw
      · simp only [dedupGo, if_pos hmem, if_neg hfs]
        exact ih _ _ _ _ hseen hpw
    · simp only [dedupGo, if_neg hmem]
      refine ih _ _ _ _ ?_ ?_
      · intro t ht
        rcases List.mem_append.1 ht with h | h
        · exact List.mem_append.2 (Or.inl (hseen t h))
        · simp only [List.mem_singleton] at h
          subst h
          exact List.mem_append.2 (Or.inr (by simp))
      · refine List.pairwise_append.2 ⟨hpw, List.pairwise_singleton _ _, ?_⟩
        intro a ha b hb
        simp only [List.mem_singleton] at hb
        subst hb
        intro hcontra
        exact hmem (hcontra ▸ hseen a ha)

/-! ## Invariants of the scan state -/

/-- Appending an upper bound to a strictly structured chain keeps it a chain. -/
theorem chain'_append_single {α} {R : α → α → Prop} :
    ∀ {l : List α} {b : α}, List.Chain' R l → (∀ a ∈ l, R a b) → List.Chain' R (l ++ [b]) := by
  intro l b hl hb
  refine List.chain'_append.2 ⟨hl, List.chain'_singleton b, ?_⟩
  intro x hx y hy
  simp only [List.head?_cons, Option.mem_def, Option.some.injEq] at hy
  subst hy
  exact hb x (List.mem_of_mem_getLast? hx)

theorem stInv_init {Frame} (ctx : Ctx Frame) : StInv ctx (initSt ctx) := by
  refine ⟨List.chain'_nil, ?_, ?_, rfl⟩ <;> intro r hr <;> simp [initSt] at hr

theorem stInv_closeFinish {Frame} (ctx : Ctx Frame) {st : St} (h : StInv ctx st) :
    StInv ctx (closeFinish ctx st) := by
  obtain ⟨h1, h2, h3, h4⟩ := h
  exact ⟨h1, fun r hr => Nat.lt_succ_of_lt (h2 r hr), h3, h4⟩

theorem stInv_closeAccept {Frame} (ctx : Ctx Frame) {st : St} (hp : FP) (ocr : String)
    (h : StInv ctx st) (hocr : MIN_OCR_TEXT_LENGTH ≤ ocr.length) :
    StInv ctx (closeAccept ctx hp ocr st) := by
  obtain ⟨h1, h2, h3, h4⟩ := h
  refine ⟨?_, ?_, ?_, ?_⟩
  · exact chain'_append_single h1 (fun a ha => h2 a ha)
  · intro r hr
    rcases List.mem_append.1 hr with hr | hr
    · exact Nat.lt_succ_of_lt (h2 r hr)
    · simp only [List.mem_singleton] at hr
      subst hr
      exact Nat.lt_succ_self _
  · intro r hr
    rcases List.mem_append.1 hr with hr | hr
    · exact h3 r hr
    · simp only [List.mem_singleton] at hr
      subst hr
      exact hocr
  · simp only [closeAccept, closeFinish, List.map_append, h4, List.map_cons, List.map_nil]

theorem stInv_closeGroup {Frame} (ctx : Ctx Frame) {st : St} (hp : FP) (h : StInv ctx st) :
    StInv ctx (closeGroup ctx hp st) := by
  obtain ⟨h1, h2, h3, h4⟩ := h
  simp only [closeGroup]
  split
  · exact stInv_closeFinish ctx ⟨h1, h2, h3, h4⟩
  · split
    · exact stInv_closeFinish ctx ⟨h1, h2, h3, h4⟩
    · rename_i hlen
      split
      · exact stInv_closeAccept ctx hp _ ⟨h1, h2, h3, h4⟩ (Nat.le_of_not_lt hlen)
      · split
        · exact stInv_closeFinish ctx ⟨h1, h2, h3, h4⟩
        · split
          · split
            · split
              · exact stInv_closeFinish ctx ⟨h1, h2, h3, h4⟩
              · exact stInv_closeFinish ctx ⟨h1, h2, h3, h4⟩
            · exact stInv_closeAccept ctx hp _ ⟨h1, h2, h3, h4⟩ (Nat.le_of_not_lt hlen)
          · exact stInv_closeAccept ctx hp _ ⟨h1, h2, h3, h4⟩ (Nat.le_of_not_lt hlen)

theorem stInv_loopIter {Frame} (ctx : Ctx Frame) (endf : Nat) {st st' : St}
    (hstep : loopIter ctx endf st = some st') (h : StInv ctx st) : StInv ctx st' := by
  obtain ⟨h1, h2, h3, h4⟩ := h
  simp only [loopIter] at hstep
  split at hstep
  · split at hstep
    · cases hstep
    · simp only [Option.some.injEq] at hstep
      subst hstep
      split
      · split
        · exact stInv_closeGroup ctx _ ⟨h1, h2, h3, h4⟩
        · exact ⟨h1, h2, h3, h4⟩
      · split
        · exact ⟨h1, h2, h3, h4⟩
        · exact ⟨h1, h2, h3, h4⟩
  · cases hstep

theorem stInv_runLoop {Frame} (ctx : Ctx Frame) (endf : Nat) :
    ∀ (fuel : Nat) (st : St), StInv ctx st → StInv ctx (runLoop ctx endf fuel st) := by
  intro fuel
  induction fuel with
  | zero => intro st h; exact h
  | succ fuel ih =>
    intro st h
    unfold runLoop
    cases hstep : loopIter ctx endf st with
    | none => exact h
    | some st' => exact ih st' (stInv_loopIter ctx endf hstep h)

/-- The post-flush facts: the final slide list still carries a strictly
increasing chain of group ids, the minimum-text bound, and the written images
are exactly the accepted slides' files. -/
theorem stInv_flushLast {Frame} (ctx : Ctx Frame) {st : St} (h : StInv ctx st) :
    List.Chain' (fun a b => a.group_id < b.group_id) (flushLast ctx st).unique_slides ∧
    (∀ r ∈ (flushLast ctx st).unique_slides, MIN_OCR_TEXT_LENGTH ≤ r.ocr_text.length) ∧
    (flushLast ctx st).written =
      (flushLast ctx st).unique_slides.map
        (fun r => joinPath ctx.save_folder (imgFileName r.group_id)) := by
  obtain ⟨h1, h2, h3, h4⟩ := h
  simp only [flushLast]
  split
  · split
    · exact ⟨h1, h3, h4⟩
    · split
      · rename_i hlen
        refine ⟨chain'_append_single h1 (fun a ha => h2 a ha), ?_, ?_⟩
        · intro r hr
          rcases List.mem_append.1 hr with hr | hr
          · exact h3 r hr
          · simp only [List.mem_singleton] at hr
            subst hr
            exact hlen
        · simp only [List.map_append, h4, List.map_cons, List.map_nil]
      · exact ⟨h1, h3, h4⟩
  · exact ⟨h1, h3, h4⟩

/-! ## Pixel-level facts about masking -/

theorem paintRow_getD (bg : Pix) (roi : Roi) (r : Nat) :
    ∀ (ps : List Pix) (c0 j : Nat), j < ps.length →
      (paintRow bg roi r c0 ps).getD j [] =
        if inRoi roi r (c0 + j) then bg else ps.getD j [] := by
  intro ps
  induction ps with
  | nil => intro c0 j hj; cases hj
  | cons p ps ih =>
    intro c0 j hj
    cases j with
    | zero => simp [paintRow]
    | succ j =>
      have hj' : j < ps.length := Nat.lt_of_succ_lt_succ hj
      simp only [paintRow, List.getD_cons_succ]
      rw [ih (c0 + 1) j hj']
      have : c0 + 1 + j = c0 + (j + 1) := by omega
      rw [this]

theorem paintImg_getD (bg : Pix) (roi : Roi) :
    ∀ (rows : Img) (r0 i : Nat), i < rows.length →
      (paintImg bg roi r0 rows).getD i [] =
        paintRow bg roi (r0 + i) 0 (rows.getD i []) := by
  intro rows
  induction rows with
  | nil => intro r0 i hi; cases hi
  | cons row rows ih =>
    intro r0 i hi
    cases i with
    | zero => simp [paintImg]
    | succ i =>
      have hi' : i < rows.length := Nat.lt_of_succ_lt_succ hi
      simp only [paintImg, List.getD_cons_succ]
      rw [ih (r0 + 1) i hi']
      have : r0 + 1 + i = r0 + (i + 1) := by omega
      rw [this]

/-- Inside the region (and inside the image), `mask_frame` paints the pixel
with the per-channel median color of the frame it was handed. -/
theorem pixAt_mask_frame (f : Img) (roi : Roi) (r c : Nat)
    (hr : r < f.length) (hc : c < (f.getD r []).length) (hin : inRoi roi r c = true) :
    pixAt (mask_frame f roi) r c = medianColor f := by
  unfold pixAt mask_frame
  rw [paintImg_getD (medianColor f) roi f 0 r hr]
  rw [paintRow_getD (medianColor f) roi (0 + r) (f.getD r []) 0 c hc]
  simp only [Nat.zero_add] at hin ⊢
  rw [if_pos hin]

/-! ## Projection helpers for the extraction entry point -/

theorem extractImpl_fst {Frame} (ctx : Ctx Frame) (fuel : Nat) :
    (extractImpl ctx fuel).1 =
      (flushLast ctx (runLoop ctx (endFrame ctx) fuel (initSt ctx))).unique_slides.map
        stringifyHash := rfl

theorem extractImpl_snd {Frame} (ctx : Ctx Frame) (fuel : Nat) :
    (extractImpl ctx fuel).2 =
      (flushLast ctx (runLoop ctx (endFrame ctx) fuel (initSt ctx))).written ++
        (if (flushLast ctx (runLoop ctx (endFrame ctx) fuel (initSt ctx))).speaker_names.isEmpty
          then []
          else [joinPath ctx.save_folder "speaker_names.txt"]) := rfl

/-! ## Claims -/

/-- C9: if the video source cannot be opened, `extract_unique_slides` returns
an empty slide list and writes no slide image or side-channel file; the model
is a total function, so no exception is raised. -/
theorem unopened_source_empty_result_C9 {Frame} (ctx : Ctx Frame) :
    extract_unique_slides false ctx = ([], []) := rfl

/-- C2 (amended): a boundary tick arriving while a run is open closes and
emits the run, but the Segmenter then leaves the run state entirely: the
member list is cleared, the group counter advances, the previous-tick
fingerprint is left at the closed run's last member, and the scan resumes at
the boundary position plus three seconds.  No new run is opened at the
boundary tick. -/
theorem run_close_resets_segmenter_C2 {Frame} (ctx : Ctx Frame) (h : FP) (st : St) :
    (closeGroup ctx h st).group_started = false ∧
    (closeGroup ctx h st).members = [] ∧
    (closeGroup ctx h st).group_id = st.group_id + 1 ∧
    (closeGroup ctx h st).last_slide_hash = st.last_slide_hash ∧
    (closeGroup ctx h st).frame_number = st.frame_number + ctx.fps * 3 := by
  simp only [closeGroup, closeAccept, closeFinish]
  split
  · exact ⟨rfl, rfl, rfl, rfl, rfl⟩
  · split
    · exact ⟨rfl, rfl, rfl, rfl, rfl⟩
    · split
      · exact ⟨rfl, rfl, rfl, rfl, rfl⟩
      · split
        · exact ⟨rfl, rfl, rfl, rfl, rfl⟩
        · split
          · split
            · split
              · exact ⟨rfl, rfl, rfl, rfl, rfl⟩
              · exact ⟨rfl, rfl, rfl, rfl, rfl⟩
            · exact ⟨rfl, rfl, rfl, rfl, rfl⟩
          · exact ⟨rfl, rfl, rfl, rfl, rfl⟩

/-- C2 counterexample: in the `ctxReshow` scenario, after three iterations the
Segmenter is in a run with members 0, 1, 2 and previous-tick fingerprint
`fpA`; tick 3 reads a frame whose fingerprint `fpB` differs by more than the
threshold, so the claim requires the next state to be in a run whose first
member is tick 3 — but after the fourth iteration the run state is closed and
the member list empty. -/
theorem boundary_tick_not_in_next_run_C2_cex :
    (runLoop ctxReshow (endFrame ctxReshow) 3 (initSt ctxReshow)).group_started = true ∧
    (runLoop ctxReshow (endFrame ctxReshow) 3 (initSt ctxReshow)).members = [0, 1, 2] ∧
    (runLoop ctxReshow (endFrame ctxReshow) 3 (initSt ctxReshow)).last_slide_hash = some fpA ∧
    ctxReshow.video 3 = some 3 ∧
    ctxReshow.hashFn 3 = fpB ∧
    ctxReshow.similarity_threshold < hdist fpB fpA ∧
    (runLoop ctxReshow (endFrame ctxReshow) 4 (initSt ctxReshow)).group_started = false ∧
    (runLoop ctxReshow (endFrame ctxReshow) 4 (initSt ctxReshow)).members = [] := by
  decide

/-- C1 (amended): a candidate closed during the scan whose boundary-tick hash
is within the similarity threshold of any fingerprint stored for an accepted
slide is rejected — no slide record is appended and no image is written.
(The run still open at end of stream is flushed without this comparison.) -/
theorem dedup_rejects_within_threshold_C1 {Frame} (ctx : Ctx Frame) (st : St) (h : FP)
    (hdup : is_duplicate_slide h st.hash_index ctx.similarity_threshold = true) :
    (closeGroup ctx h st).unique_slides = st.unique_slides ∧
    (closeGroup ctx h st).written = st.written := by
  have hne : ¬(st.hash_index.isEmpty = true) := by
    intro hemp
    rw [List.isEmpty_iff] at hemp
    rw [hemp] at hdup
    simp [is_duplicate_slide] at hdup
  simp only [closeGroup, closeFinish]
  split
  · exact ⟨rfl, rfl⟩
  · rw [if_neg hne, if_pos hdup]
    split
    · exact ⟨rfl, rfl⟩
    · exact ⟨rfl, rfl⟩

/-- C1 witness: with one accepted slide whose stored fingerprint is `fpB`,
closing a run at a boundary tick whose hash is `fpB` (distance 0 ≤ 1) appends
nothing. -/
theorem dedup_rejects_within_threshold_C1_wit :
    (closeGroup ctxReshow fpB stDup).unique_slides = stDup.unique_slides ∧
    (closeGroup ctxReshow fpB stDup).written = stDup.written :=
  dedup_rejects_within_threshold_C1 ctxReshow stDup fpB (by decide)

/-- C1 counterexample: slide A (fingerprint `fpA`) is shown, slide B is
shown, then slide A is shown again; the rerun of A survives to the end of the
stream and is appended by the flush with fingerprint `fpA`, identical
(distance 0 ≤ threshold 1) to the fingerprint persisted for the already
accepted slide with group 1 — and the rep-frame hash of the accepted slide
with group 0 is also `fpA`.  The claim requires the rerun to be rejected, and
requires its scenario to yield exactly one accepted slide for A; the code
accepts three slides, two of them showing A. -/
theorem reshown_slide_accepted_C1_cex :
    ((extract_unique_slides true ctxReshow).1.map (fun r => (r.group_id, r.imagehash))) =
      [(0, fpStr fpB), (1, fpStr fpA), (2, fpStr fpA)] ∧
    hdist fpA fpA ≤ ctxReshow.similarity_threshold ∧
    ctxReshow.hashFn 11 = fpA := by
  decide

/-- C3 (amended): the fingerprint persisted with an accepted slide (and
stored in the duplicate index) is the hash of the boundary tick that closed
the run — the argument `h` fed to the closing block — not the hash of the
run's representative middle frame; the slide appended by the end-of-stream
flush carries the hash of the last tick read. -/
theorem persisted_fingerprint_is_boundary_hash_C3 {Frame} (ctx : Ctx Frame) (st : St) (h : FP)
    (r r' : Slide FP)
    (hr : r ∈ (closeGroup ctx h st).unique_slides)
    (hr' : r' ∈ (flushLast ctx st).unique_slides) :
    (r ∈ st.unique_slides ∨ r.imagehash = h) ∧
    (r' ∈ st.unique_slides ∨ r'.imagehash = st.cur_hash.getD []) := by
  constructor
  · simp only [closeGroup, closeAccept, closeFinish] at hr
    split at hr
    · exact Or.inl hr
    · split at hr
      · exact Or.inl hr
      · split at hr
        · rcases List.mem_append.1 hr with hm | hm
          · exact Or.inl hm
          · simp only [List.mem_singleton] at hm
            subst hm
            exact Or.inr rfl
        · split at hr
          · exact Or.inl hr
          · split at hr
            · split at hr
              · split at hr
                · exact Or.inl hr
                · exact Or.inl hr
              · rcases List.mem_append.1 hr with hm | hm
                · exact Or.inl hm
                · simp only [List.mem_singleton] at hm
                  subst hm
                  exact Or.inr rfl
            · rcases List.mem_append.1 hr with hm | hm
              · exact Or.inl hm
              · simp only [List.mem_singleton] at hm
                subst hm
                exact Or.inr rfl
  · simp only [flushLast] at hr'
    split at hr'
    · split at hr'
      · exact Or.inl hr'
      · split at hr'
        · rcases List.mem_append.1 hr' with hm | hm
          · exact Or.inl hm
          · simp only [List.mem_singleton] at hm
            subst hm
            exact Or.inr rfl
        · exact Or.inl hr'
    · exact Or.inl hr'

/-- C3 witness: closing `stDup`'s run at a boundary tick of hash `fpA`
appends a record carrying `fpA` (the boundary hash), and flushing `stDup`
appends a record carrying `fpB` (the last tick's hash). -/
theorem persisted_fingerprint_is_boundary_hash_C3_wit :
    ((⟨1, 7, "out/slide_1.png", "0123456789", fpA⟩ : Slide FP) ∈ stDup.unique_slides ∨
      (⟨1, 7, "out/slide_1.png", "0123456789", fpA⟩ : Slide FP).imagehash = fpA) ∧
    ((⟨1, 7, "out/slide_1.png", "0123456789", fpB⟩ : Slide FP) ∈ stDup.unique_slides ∨
      (⟨1, 7, "out/slide_1.png", "0123456789", fpB⟩ : Slide FP).imagehash =
        stDup.cur_hash.getD []) :=
  persisted_fingerprint_is_boundary_hash_C3 ctxReshow stDup fpA
    ⟨1, 7, "out/slide_1.png", "0123456789", fpA⟩
    ⟨1, 7, "out/slide_1.png", "0123456789", fpB⟩
    (by decide) (by decide)

/-- C3 counterexample: in the `ctxReshow` scenario the first accepted slide's
persisted fingerprint is `fpStr fpB` (the boundary tick's hash), while its
run was frames 0-2 whose representative middle frame 1 hashes to `fpA`. -/
theorem persisted_fingerprint_not_representative_C3_cex :
    ((extract_unique_slides true ctxReshow).1.map (fun r => (r.group_id, r.imagehash))).head? =
      some (0, fpStr fpB) ∧
    (runLoop ctxReshow (endFrame ctxReshow) 3 (initSt ctxReshow)).members = [0, 1, 2] ∧
    ctxReshow.video 1 = some 1 ∧
    ctxReshow.hashFn 1 = fpA ∧
    fpStr fpA ≠ fpStr fpB := by
  decide

/-- C4 (amended): the name-density classifier is consulted only when at least
one slide has already been accepted (the duplicate-check branch guarded by
`elif slide_hash_index:`) and the candidate is not a fingerprint duplicate;
in that case a mostly-names report rejects the candidate — nothing is
appended or written — and the retained name block is replaced exactly when
the candidate's detected-name count strictly exceeds the current one. -/
theorem name_gate_requires_accepted_slide_C4 {Frame} (ctx : Ctx Frame) (st : St) (h : FP)
    (f : Frame) (names : List String)
    (hsel : ctx.video (st.members.getD (st.members.length / 2) 0) = some f)
    (hmin : MIN_OCR_TEXT_LENGTH ≤ (ctx.ocrFn f).length)
    (hmax : (ctx.ocrFn f).length ≤ MAX_OCR_TEXT_FOR_NAME_CHECK)
    (hidx : st.hash_index.isEmpty = false)
    (hdupf : is_duplicate_slide h st.hash_index ctx.similarity_threshold = false)
    (hname : ctx.nameFn (ctx.ocrFn f) = (true, names)) :
    (closeGroup ctx h st).unique_slides = st.unique_slides ∧
    (closeGroup ctx h st).written = st.written ∧
    (closeGroup ctx h st).speaker_names =
      (if st.speaker_names.length < names.length then names else st.speaker_names) ∧
    (closeGroup ctx h st).names_text =
      (if st.speaker_names.length < names.length then ctx.ocrFn f else st.names_text) := by
  simp only [closeGroup, hsel]
  rw [if_neg (by omega : ¬(ctx.ocrFn f).length < MIN_OCR_TEXT_LENGTH)]
  rw [if_neg (show ¬(st.hash_index.isEmpty = true) by simp [hidx])]
  rw [if_neg
    (show ¬(is_duplicate_slide h st.hash_index ctx.similarity_threshold = true) by simp [hdupf])]
  rw [if_pos hmax, hname]
  by_cases hrep : st.speaker_names.length < names.length
  · simp [closeFinish, if_pos hrep]
  · simp [closeFinish, if_neg hrep]

/-- C4 witness: with one accepted slide in the index and a non-duplicate
mostly-names candidate of 15 characters with 3 detected names, the candidate
is rejected and the empty name block is replaced. -/
theorem name_gate_requires_accepted_slide_C4_wit :
    (closeGroup ctxNames fpA stNameCheck).unique_slides = stNameCheck.unique_slides ∧
    (closeGroup ctxNames fpA stNameCheck).written = stNameCheck.written ∧
    (closeGroup ctxNames fpA stNameCheck).speaker_names =
      (if stNameCheck.speaker_names.length < (["Alice", "Bob", "Carol"] : List String).length
        then ["Alice", "Bob", "Carol"] else stNameCheck.speaker_names) ∧
    (closeGroup ctxNames fpA stNameCheck).names_text =
      (if stNameCheck.speaker_names.length < (["Alice", "Bob", "Carol"] : List String).length
        then ctxNames.ocrFn 1 else stNameCheck.names_text) :=
  name_gate_requires_accepted_slide_C4 ctxNames stNameCheck fpA 1 ["Alice", "Bob", "Carol"]
    (by decide) (by decide) (by decide) (by decide) (by decide) (by decide)

/-- C4 counterexample: the very first candidate (no slide accepted yet) has a
mostly-names text of admissible length (10 ≤ 15 ≤ 300), yet it is accepted
into the slide list — the classifier branch is unreachable before the first
acceptance, so no rejection and no name-block diversion occurs (no
`speaker_names.txt` is written). -/
theorem first_candidate_skips_name_check_C4_cex :
    ((extract_unique_slides true ctxNames).1.map (fun r => r.ocr_text)) = ["Alice Bob Carol"] ∧
    ctxNames.nameFn "Alice Bob Carol" = (true, ["Alice", "Bob", "Carol"]) ∧
    MIN_OCR_TEXT_LENGTH ≤ "Alice Bob Carol".length ∧
    "Alice Bob Carol".length ≤ MAX_OCR_TEXT_FOR_NAME_CHECK ∧
    (extract_unique_slides true ctxNames).2 = ["out/slide_0.png"] := by
  decide

/-- Strictly increasing key values along a chain make the keys pairwise
distinct. -/
theorem pairwise_ne_of_chain'_lt {α} (g : α → Nat) {l : List α}
    (h : List.Chain' (fun a b => g a < g b) l) :
    List.Pairwise (fun a b => g a ≠ g b) l := by
  haveI : IsTrans α (fun a b => g a < g b) := ⟨fun x y z => Nat.lt_trans⟩
  exact (List.chain'_iff_pairwise.mp h).imp (fun hlt => Nat.ne_of_lt hlt)

/-- C5 (amended): the group ids of the returned slides are strictly
increasing in output order and never reused; they need not start at 0 (and
need not be consecutive), because every closed run consumes a group id,
accepted or not. -/
theorem group_ids_strictly_increasing_C5 {Frame} (ctx : Ctx Frame) (opened : Bool) :
    List.Chain' (fun a b => a.group_id < b.group_id) (extract_unique_slides opened ctx).1 ∧
    List.Pairwise (fun a b => a.group_id ≠ b.group_id) (extract_unique_slides opened ctx).1 := by
  cases opened with
  | false => exact ⟨List.chain'_nil, List.Pairwise.nil⟩
  | true =>
    have hinv := stInv_runLoop ctx (endFrame ctx) (endFrame ctx + 1) (initSt ctx) (stInv_init ctx)
    obtain ⟨hchain, _, _⟩ := stInv_flushLast ctx hinv
    have hfst : (extract_unique_slides true ctx).1 =
        (flushLast ctx
          (runLoop ctx (endFrame ctx) (endFrame ctx + 1) (initSt ctx))).unique_slides.map
          stringifyHash := rfl
    rw [hfst]
    have hchain2 : List.Chain' (fun a b : Slide String => a.group_id < b.group_id)
        ((flushLast ctx
          (runLoop ctx (endFrame ctx) (endFrame ctx + 1) (initSt ctx))).unique_slides.map
          stringifyHash) := (List.chain'_map stringifyHash).2 hchain
    exact ⟨hchain2, pairwise_ne_of_chain'_lt (fun r : Slide String => r.group_id) hchain2⟩

/-- C5 counterexample: the first run's candidate is rejected at the content
gate (one-character OCR text) but still consumes group id 0, so the first
accepted slide carries group id 1 — the output does not start at 0. -/
theorem first_group_id_nonzero_C5_cex :
    ((extract_unique_slides true ctxShortFirst).1.map (fun r => r.group_id)) = [1] := by
  decide

/-- C6: the exact-text post-pass equals its contract — iterate the accepted
slides in acceptance order, keep the first slide for each distinct
whitespace-normalized text, drop later slides with a matching normalized text
and delete their persisted image files — and consequently the kept slides
have pairwise distinct normalized texts. -/
theorem exact_text_dedup_C6 {α} (slides : List (Slide α)) (folder : String) (fs : List String) :
    deduplicate_slides_by_ocr slides folder fs = dedupClaim slides folder fs ∧
    List.Pairwise (fun a b => normalizeOcr a.ocr_text ≠ normalizeOcr b.ocr_text)
      (deduplicate_slides_by_ocr slides folder fs).1 := by
  constructor
  · exact dedupGo_eq_claimGo folder slides [] [] [] fs rfl
  · exact dedupGo_pairwise folder slides [] [] [] fs
      (fun t ht => absurd ht (List.not_mem_nil t)) List.Pairwise.nil

/-- C7: every slide in the returned list has OCR text of at least
`MIN_OCR_TEXT_LENGTH` characters, and every file written is either the name
side channel or the image of an accepted slide — a candidate dropped for
short text is never persisted. -/
theorem min_ocr_and_files_C7 {Frame} (ctx : Ctx Frame) (opened : Bool) (r : Slide String)
    (p : String)
    (hr : r ∈ (extract_unique_slides opened ctx).1)
    (hp : p ∈ (extract_unique_slides opened ctx).2) :
    MIN_OCR_TEXT_LENGTH ≤ r.ocr_text.length ∧
    (p = joinPath ctx.save_folder "speaker_names.txt" ∨
      ∃ r' ∈ (extract_unique_slides opened ctx).1,
        p = joinPath ctx.save_folder (imgFileName r'.group_id)) := by
  cases opened with
  | false => exact absurd hr (by simp [extract_unique_slides])
  | true =>
    have hinv := stInv_runLoop ctx (endFrame ctx) (endFrame ctx + 1) (initSt ctx) (stInv_init ctx)
    obtain ⟨_, hocr, hwr⟩ := stInv_flushLast ctx hinv
    have hfst : (extract_unique_slides true ctx).1 =
        (flushLast ctx
          (runLoop ctx (endFrame ctx) (endFrame ctx + 1) (initSt ctx))).unique_slides.map
          stringifyHash := rfl
    have hsnd : (extract_unique_slides true ctx).2 =
        (flushLast ctx (runLoop ctx (endFrame ctx) (endFrame ctx + 1) (initSt ctx))).written ++
          (if (flushLast ctx
              (runLoop ctx (endFrame ctx) (endFrame ctx + 1) (initSt ctx))).speaker_names.isEmpty
            then []
            else [joinPath ctx.save_folder "speaker_names.txt"]) := rfl
    rw [hfst] at hr
    rw [hsnd] at hp
    obtain ⟨r0, hr0, hr0e⟩ := List.mem_map.1 hr
    constructor
    · rw [← hr0e]
      exact hocr r0 hr0
    · rcases List.mem_append.1 hp with hw | hs
      · rw [hwr] at hw
        obtain ⟨r1, hr1, he1⟩ := List.mem_map.1 hw
        refine Or.inr ⟨stringifyHash r1, ?_, ?_⟩
        · rw [hfst]
          exact List.mem_map_of_mem stringifyHash hr1
        · have hg : (stringifyHash r1).group_id = r1.group_id := rfl
          rw [hg, ← he1]
      · split at hs
        · exact absurd hs (List.not_mem_nil p)
        · simp only [List.mem_singleton] at hs
          exact Or.inl hs

/-- C7 witness: the first slide of the `ctxReshow` run meets the minimum-text
bound, and its written file is the image of an accepted slide. -/
theorem min_ocr_and_files_C7_wit :
    MIN_OCR_TEXT_LENGTH ≤
      ((⟨0, 0, "out/slide_0.png", "0123456789", fpStr fpB⟩ : Slide String)).ocr_text.length ∧
    ("out/slide_0.png" = joinPath ctxReshow.save_folder "speaker_names.txt" ∨
      ∃ r' ∈ (extract_unique_slides true ctxReshow).1,
        "out/slide_0.png" = joinPath ctxReshow.save_folder (imgFileName r'.group_id)) :=
  min_ocr_and_files_C7 ctxReshow true ⟨0, 0, "out/slide_0.png", "0123456789", fpStr fpB⟩
    "out/slide_0.png" (by decide) (by decide)

/-- C8 (amended): masks are applied sequentially before the slide region is
cropped; each single `mask_frame` call paints its region with the per-channel
median of the frame **it is handed**, so the first mask uses the original
frame's median while later masks see the already-painted frame. -/
theorem mask_median_and_order_C8 (f : Img) (roi : Roi) (r c : Nat) (g : Img)
    (slide_roi : Option Roi) (m : Roi) (rest : List Roi)
    (hr : r < f.length) (hc : c < (f.getD r []).length) (hin : inRoi roi r c = true) :
    pixAt (mask_frame f roi) r c = medianColor f ∧
    region_surface g slide_roi (m :: rest) =
      crop_slide (rest.foldl mask_frame (mask_frame g m)) slide_roi :=
  ⟨pixAt_mask_frame f roi r c hr hc hin, rfl⟩

/-- C8 witness: painting the speaker region of the 1×4 test frame writes the
frame's median color 5 at position (0,0), and the two-mask surface is the
fold of `mask_frame`. -/
theorem mask_median_and_order_C8_wit :
    pixAt (mask_frame cImg cRoiSpeaker) 0 0 = medianColor cImg ∧
    region_surface cImg none (cRoiSpeaker :: [cRoiSubtitle]) =
      crop_slide ([cRoiSubtitle].foldl mask_frame (mask_frame cImg cRoiSpeaker)) none :=
  mask_median_and_order_C8 cImg cRoiSpeaker 0 0 cImg none cRoiSpeaker [cRoiSubtitle]
    (by decide) (by decide) (by decide)

/-- C8 counterexample: with two mask regions on a frame of original median 5,
the second region is painted with 7 — the median of the frame after the first
mask was painted — not with the original frame's median 5, refuting "each
mask Region is painted with the median computed from the original frame's
pixel values". -/
theorem second_mask_uses_masked_median_C8_cex :
    medianColor cImg = [5] ∧
    region_surface cImg none [cRoiSpeaker, cRoiSubtitle] = [[[5], [0], [10], [7]]] ∧
    pixAt (region_surface cImg none [cRoiSpeaker, cRoiSubtitle]) 0 3 = [7] ∧
    inRoi cRoiSubtitle 0 3 = true ∧
    ([7] : Pix) ≠ ([5] : Pix) := by
  decide

/-- C10: when re-seeking the closed run's representative frame fails, the run
yields no slide and no file, its group id is still consumed, and the scan
resumes from the saved position plus the 3-second dead-time — the loop keeps
running instead of treating the failed read as end-of-stream. -/
theorem representative_decode_failure_C10 {Frame} (ctx : Ctx Frame) (st : St) (fr : Frame)
    (endf fuel : Nat)
    (hlt : st.frame_number < endf)
    (hread : ctx.video st.frame_number = some fr)
    (hbound : isBoundary ctx.similarity_threshold (ctx.hashFn fr) st.last_slide_hash = true)
    (hstarted : st.group_started = true)
    (hmem : st.members ≠ [])
    (hfail : ctx.video (st.members.getD (st.members.length / 2) 0) = none) :
    (closeGroup ctx (ctx.hashFn fr) { st with cur_hash := some (ctx.hashFn fr) }).unique_slides =
      st.unique_slides ∧
    (closeGroup ctx (ctx.hashFn fr) { st with cur_hash := some (ctx.hashFn fr) }).written =
      st.written ∧
    (closeGroup ctx (ctx.hashFn fr) { st with cur_hash := some (ctx.hashFn fr) }).group_id =
      st.group_id + 1 ∧
    (closeGroup ctx (ctx.hashFn fr) { st with cur_hash := some (ctx.hashFn fr) }).frame_number =
      st.frame_number + ctx.fps * 3 ∧
    runLoop ctx endf (fuel + 1) st =
      runLoop ctx endf fuel
        (closeGroup ctx (ctx.hashFn fr) { st with cur_hash := some (ctx.hashFn fr) }) := by
  have hclose : closeGroup ctx (ctx.hashFn fr) { st with cur_hash := some (ctx.hashFn fr) } =
      closeFinish ctx { st with cur_hash := some (ctx.hashFn fr) } := by
    simp only [closeGroup, hfail]
  have hcond : ({ st with cur_hash := some (ctx.hashFn fr) } : St).group_started = true ∧
      ({ st with cur_hash := some (ctx.hashFn fr) } : St).members ≠ [] := ⟨hstarted, hmem⟩
  have hiter : loopIter ctx endf st =
      some (closeGroup ctx (ctx.hashFn fr) { st with cur_hash := some (ctx.hashFn fr) }) := by
    simp only [loopIter, hread]
    rw [if_pos hlt, if_pos hbound, if_pos hcond]
  refine ⟨?_, ?_, ?_, ?_, ?_⟩
  · rw [hclose]
    rfl
  · rw [hclose]
    rfl
  · rw [hclose]
    rfl
  · rw [hclose]
    rfl
  · simp only [runLoop, hiter]

/-- C10 witness: in `ctxFail`/`stFail` the boundary frame 5 decodes but the
run's representative frame 2 does not; the close consumes group id 7 → 8,
appends nothing, and the loop keeps running from position 5 + 3. -/
theorem representative_decode_failure_C10_wit :
    (closeGroup ctxFail (ctxFail.hashFn 5)
        { stFail with cur_hash := some (ctxFail.hashFn 5) }).unique_slides =
      stFail.unique_slides ∧
    (closeGroup ctxFail (ctxFail.hashFn 5)
        { stFail with cur_hash := some (ctxFail.hashFn 5) }).written = stFail.written ∧
    (closeGroup ctxFail (ctxFail.hashFn 5)
        { stFail with cur_hash := some (ctxFail.hashFn 5) }).group_id = stFail.group_id + 1 ∧
    (closeGroup ctxFail (ctxFail.hashFn 5)
        { stFail with cur_hash := some (ctxFail.hashFn 5) }).frame_number =
      stFail.frame_number + ctxFail.fps * 3 ∧
    runLoop ctxFail 100 (0 + 1) stFail =
      runLoop ctxFail 100 0
        (closeGroup ctxFail (ctxFail.hashFn 5)
          { stFail with cur_hash := some (ctxFail.hashFn 5) }) :=
  representative_decode_failure_C10 ctxFail stFail 5 100 0 (by decide) (by decide) (by decide)
    (by decide) (by decide) (by decide)

end V2N
